import Mathlib

/-
Verification of the Jupiter-Perpetuals-Analytics scanner (src/main.rs).

The pipeline in `main` is embedded shallowly:
  * Rust `f64` arithmetic is modelled by the type `F`: an exact rational for
    finite values (binary64 rounding is abstracted to exact arithmetic) plus
    the IEEE-754 special values `+inf`, `-inf` and `NaN`, with the IEEE
    special-case rules for the operations the program performs (signed zero
    does not arise on the divisions the program executes, so it is not
    modelled).
  * `u64`/`i64` quantities are `Nat`/`Int`; where the program's wrap-around
    behaviour matters (the `unix_time - update_time` subtraction and the
    stable-custody accumulators) the reduction modulo 2^64 is explicit.
  * The `.unwrap()` calls on map lookups in the position loop are fallible
    operations and are modelled with `Except`, one error per unwrap site.
  * The RPC fetches, account deserialization and the Pyth oracle read are
    external capabilities: custody records arrive paired with their already
    resolved oracle price, position records arrive already decoded.
-/

namespace JupPerp

/-- Model of a Rust `f64` value: an exact rational for finite values plus the
IEEE-754 special values, used so that the program's division-by-zero and NaN
behaviour is representable. -/
inductive F where
  | fin (q : ℚ)
  | pinf
  | ninf
  | nan
  deriving DecidableEq

/-- IEEE negation. -/
def F.fneg : F → F
  | .fin q => .fin (-q)
  | .pinf => .ninf
  | .ninf => .pinf
  | .nan => .nan

/-- IEEE addition (exact on finite values). -/
def F.fadd : F → F → F
  | .nan, _ => .nan
  | _, .nan => .nan
  | .fin a, .fin b => .fin (a + b)
  | .pinf, .ninf => .nan
  | .ninf, .pinf => .nan
  | .pinf, _ => .pinf
  | .ninf, _ => .ninf
  | .fin _, .pinf => .pinf
  | .fin _, .ninf => .ninf

/-- IEEE subtraction, `a - b = a + (-b)` exactly. -/
def F.fsub (a b : F) : F := F.fadd a (F.fneg b)

/-- IEEE multiplication (exact on finite values). -/
def F.fmul : F → F → F
  | .nan, _ => .nan
  | _, .nan => .nan
  | .fin a, .fin b => .fin (a * b)
  | .fin a, .pinf => if a = 0 then .nan else if 0 < a then .pinf else .ninf
  | .fin a, .ninf => if a = 0 then .nan else if 0 < a then .ninf else .pinf
  | .pinf, .fin b => if b = 0 then .nan else if 0 < b then .pinf else .ninf
  | .ninf, .fin b => if b = 0 then .nan else if 0 < b then .ninf else .pinf
  | .pinf, .pinf => .pinf
  | .pinf, .ninf => .ninf
  | .ninf, .pinf => .ninf
  | .ninf, .ninf => .pinf

/-- IEEE division: finite / 0 is `±inf` (or `NaN` for 0/0), finite / `±inf`
is zero, `±inf / ±inf` is `NaN`. Zeros are treated as `+0`. -/
def F.fdiv : F → F → F
  | .nan, _ => .nan
  | _, .nan => .nan
  | .fin a, .fin b =>
      if b = 0 then (if a = 0 then .nan else if 0 < a then .pinf else .ninf)
      else .fin (a / b)
  | .fin _, .pinf => .fin 0
  | .fin _, .ninf => .fin 0
  | .pinf, .fin b => if b < 0 then .ninf else .pinf
  | .ninf, .fin b => if b < 0 then .pinf else .ninf
  | .pinf, .pinf => .nan
  | .pinf, .ninf => .nan
  | .ninf, .pinf => .nan
  | .ninf, .ninf => .nan

/-- IEEE `<` comparison: any comparison involving `NaN` is false. -/
def F.flt : F → F → Bool
  | .nan, _ => false
  | _, .nan => false
  | .fin a, .fin b => decide (a < b)
  | .fin _, .pinf => true
  | .fin _, .ninf => false
  | .pinf, _ => false
  | .ninf, .ninf => false
  | .ninf, _ => true

/-- Rust `f64::round`: round to nearest, ties away from zero. -/
def roundAwayFromZero (q : ℚ) : ℤ :=
  if q < 0 then -⌊-q + 1 / 2⌋ else ⌊q + 1 / 2⌋

/-- `spl_token::amount_to_ui_amount(n, 6)`: fixed-point with 6 implied
decimals to real units. -/
def uiAmount (n : ℕ) : ℚ := (n : ℚ) / 1000000

/-- Wrap-around of Rust release-mode `u64` arithmetic. -/
def u64Wrap (n : ℕ) : ℕ := n % (2 ^ 64)

/-- The program's `unix_time.sub(position.update_time as u64)`: `update_time`
(an `i64`) is reinterpreted as `u64` and subtracted from the `u64` scan time
with wrap-around, i.e. `(now - updateTime) mod 2^64`. -/
def elapsedU64 (now : ℕ) (updateTime : ℤ) : ℕ :=
  (((now : ℤ) - updateTime) % (2 ^ 64 : ℤ)).toNat

/-- Modelled from the spec: the `perp_abi` custody asset balances
(`assets.owned`, `assets.locked`, fixed-point 6 decimals), the crate itself
not being part of the repository. -/
structure Assets where
  owned : ℕ
  locked : ℕ
  deriving DecidableEq

/-- Modelled from the spec: the `perp_abi` funding-rate state carrying
`hourlyFundingBps`. -/
structure FundingRateState where
  hourlyFundingBps : ℕ
  deriving DecidableEq

/-- Modelled from the spec: a `perp_abi` custody record; pubkeys are
identifiers, modelled as naturals. -/
structure Custody where
  mint : ℕ
  assets : Assets
  fundingRateState : FundingRateState
  deriving DecidableEq

/-- Modelled from the spec: the `perp_abi` pool fee parameters. -/
structure Fees where
  increasePositionBps : ℕ
  deriving DecidableEq

/-- Modelled from the spec: the `perp_abi` pool record (only the fields the
pipeline reads). -/
structure Pool where
  aumUsd : ℕ
  fees : Fees
  deriving DecidableEq

/-- Modelled from the spec: `side` is `Long | Short`. -/
inductive Side where
  | Long
  | Short
  deriving DecidableEq

/-- Modelled from the spec: a `perp_abi` position record (the fields the
pipeline reads); `updateTime` is an `i64`. -/
structure Position where
  sizeUsd : ℕ
  price : ℕ
  collateralUsd : ℕ
  custody : ℕ
  collateralCustody : ℕ
  side : Side
  updateTime : ℤ
  deriving DecidableEq

/-- Pointwise-functional model of the `HashMap` inserts in `main`. -/
def insertFn {α : Type} (m : ℕ → Option α) (k : ℕ) (v : α) : ℕ → Option α :=
  fun x => if x = k then some v else m x

/-- State built by the custody loop of `main` (lines 141-172): the custody
map, the volatile-mint price map, the borrow-rate table and the stable
accumulators (`u64`, hence wrapped). -/
structure CustodyScan where
  pubkeyToCustody : ℕ → Option Custody
  mintToPrice : ℕ → Option ℚ
  custodyPubkeyToBorrowRate : ℕ → Option F
  stableCustodys : List ℕ
  stableAum : ℕ
  stableBorrow : ℕ

def emptyScan : CustodyScan :=
  { pubkeyToCustody := fun _ => none
    mintToPrice := fun _ => none
    custodyPubkeyToBorrowRate := fun _ => none
    stableCustodys := []
    stableAum := 0
    stableBorrow := 0 }

/-- The stable test of `main` line 150: `price.round() == 1.0`. -/
def isStablePrice (p : ℚ) : Bool := roundAwayFromZero p == 1

/-- The volatile-custody borrow rate of `main` lines 158-163:
`ui(locked) / ui(owned) * hourly_funding_bps`, as `f64` arithmetic. -/
def volatileRate (c : Custody) : F :=
  F.fmul (F.fdiv (F.fin (uiAmount c.assets.locked)) (F.fin (uiAmount c.assets.owned)))
    (F.fin (c.fundingRateState.hourlyFundingBps : ℚ))

/-- One iteration of the custody loop (`main` lines 145-165): insert the
custody, then either accumulate it into the stable group or record its mint
price and per-custody volatile rate. -/
def custodyStep (s : CustodyScan) (e : ℕ × Custody × ℚ) : CustodyScan :=
  if isStablePrice e.2.2 then
    { s with
      pubkeyToCustody := insertFn s.pubkeyToCustody e.1 e.2.1
      stableCustodys := s.stableCustodys ++ [e.1]
      stableAum := u64Wrap (s.stableAum + e.2.1.assets.owned)
      stableBorrow := u64Wrap (s.stableBorrow + e.2.1.assets.locked) }
  else
    { s with
      pubkeyToCustody := insertFn s.pubkeyToCustody e.1 e.2.1
      mintToPrice := insertFn s.mintToPrice e.2.1.mint e.2.2
      custodyPubkeyToBorrowRate :=
        insertFn s.custodyPubkeyToBorrowRate e.1 (volatileRate e.2.1) }

/-- The stable second loop (`main` lines 167-172): every address collected in
`stable_custodys` receives the same rate. -/
def insertStableRates (m : ℕ → Option F) (r : F) : List ℕ → (ℕ → Option F)
  | [] => m
  | a :: rest => insertStableRates (insertFn m a r) r rest

/-- The whole custody stage: fold the custody loop over the fetched custody
accounts (each paired with its resolved oracle price), then assign the pooled
stable rate `stable_borrow as f64 / stable_aum as f64`. -/
def runCustodyScan (cs : List (ℕ × Custody × ℚ)) : CustodyScan :=
  let s := cs.foldl custodyStep emptyScan
  { s with
    custodyPubkeyToBorrowRate :=
      insertStableRates s.custodyPubkeyToBorrowRate
        (F.fdiv (F.fin (s.stableBorrow : ℚ)) (F.fin (s.stableAum : ℚ)))
        s.stableCustodys }

/-- The per-position quantity `amount = size_usd as f64 / price as f64`
(`main` line 204). -/
def amountOf (pos : Position) : F :=
  F.fdiv (F.fin (pos.sizeUsd : ℚ)) (F.fin (pos.price : ℚ))

/-- `price_at_entry = amount_to_ui_amount(position.price, 6)` (line 205). -/
def entryPriceOf (pos : Position) : ℚ := uiAmount pos.price

/-- `interval = (unix_time - update_time) as f64 / 3600.0` (line 207). -/
def intervalOf (now : ℕ) (pos : Position) : F :=
  F.fdiv (F.fin (elapsedU64 now pos.updateTime : ℚ)) (F.fin 3600)

/-- `position_value_at_entry = amount_to_ui_amount(size_usd, 6)` (line 210). -/
def entryValueOf (pos : Position) : ℚ := uiAmount pos.sizeUsd

/-- `current_position_value = amount * price` (line 209), `price` being the
resolved oracle price of the position's mint. -/
def currentValueOf (p : ℚ) (pos : Position) : F :=
  F.fmul (amountOf pos) (F.fin p)

/-- `entry_fees = position_value_at_entry * increase_position_bps / 10000`
(lines 212-214). -/
def entryFeesOf (pool : Pool) (pos : Position) : F :=
  F.fdiv (F.fmul (F.fin (entryValueOf pos)) (F.fin (pool.fees.increasePositionBps : ℚ)))
    (F.fin 10000)

/-- `borrow_fees = rate * interval * position_value_at_entry / 10000`
(lines 216-224), `rate` being the borrow-rate table entry of the position's
collateral custody. -/
def borrowFeesOf (r : F) (now : ℕ) (pos : Position) : F :=
  F.fdiv (F.fmul (F.fmul r (intervalOf now pos)) (F.fin (entryValueOf pos)))
    (F.fin 10000)

/-- `long_short_sign`: `1.0` for Long, `-1.0` for Short (lines 226-232). -/
def signOf : Side → ℚ
  | Side.Long => 1
  | Side.Short => -1

/-- `current_collateral = collateral_at_entry + amount * (price -
price_at_entry) * long_short_sign` (lines 234-243). -/
def currentCollateralOf (p : ℚ) (pos : Position) : F :=
  F.fadd (F.fin (uiAmount pos.collateralUsd))
    (F.fmul (F.fmul (amountOf pos) (F.fsub (F.fin p) (F.fin (entryPriceOf pos))))
      (F.fin (signOf pos.side)))

/-- `unrealized_pnl = (current_position_value - position_value_at_entry) *
long_short_sign` (lines 250-253). -/
def unrealizedPnlOf (p : ℚ) (pos : Position) : F :=
  F.fmul (F.fsub (currentValueOf p pos) (F.fin (entryValueOf pos)))
    (F.fin (signOf pos.side))

/-- One error per `.unwrap()` site of the position loop: the custody lookup
(line 203), the mint-price lookup (line 206) and the borrow-rate lookup
(lines 216-218). -/
inductive AggErr where
  | missingCustody
  | unknownMint
  | missingBorrowRate
  deriving DecidableEq

/-- The extremal-trade tuple `(pubkey, pnl, entry price, side, mint)`
(lines 195-196). -/
structure TradeRec where
  address : ℕ
  pnl : F
  entryPrice : ℚ
  side : Side
  mint : ℕ
  deriving DecidableEq

/-- The mutable accumulators of the position loop (lines 180-196). -/
structure AggState where
  numPositions : ℕ
  numLongs : ℕ
  numWinning : ℕ
  cumulativePositions : F
  cumulativeLong : F
  cumulativePositionsAtEntry : F
  cumulativeCollateral : F
  cumulativeCollateralAtEntry : F
  cumulativeFees : F
  cumulativePnl : F
  highestUnrealizedProfit : F
  highestUnrealizedLosses : F
  mostProfitableTrade : TradeRec
  leastProfitableTrade : TradeRec
  deriving DecidableEq

/-- The accumulators' initial values: zeros and the `Default::default()`
placeholder trades. -/
def initAgg : AggState :=
  { numPositions := 0
    numLongs := 0
    numWinning := 0
    cumulativePositions := F.fin 0
    cumulativeLong := F.fin 0
    cumulativePositionsAtEntry := F.fin 0
    cumulativeCollateral := F.fin 0
    cumulativeCollateralAtEntry := F.fin 0
    cumulativeFees := F.fin 0
    cumulativePnl := F.fin 0
    highestUnrealizedProfit := F.fin 0
    highestUnrealizedLosses := F.fin 0
    mostProfitableTrade := { address := 0, pnl := F.fin 0, entryPrice := 0, side := Side.Long, mint := 0 }
    leastProfitableTrade := { address := 0, pnl := F.fin 0, entryPrice := 0, side := Side.Long, mint := 0 } }

/-- One iteration of the position loop (`main` lines 198-283): skip when
`size_usd == 0`, otherwise resolve the custody, the mint price and the
borrow rate (each `.unwrap()` an error case) and update every accumulator. -/
def stepPosition (pool : Pool) (scan : CustodyScan) (now : ℕ) (s : AggState)
    (pk : ℕ) (pos : Position) : Except AggErr AggState :=
  if pos.sizeUsd = 0 then Except.ok s else
  match scan.pubkeyToCustody pos.custody with
  | none => Except.error AggErr.missingCustody
  | some c =>
    match scan.mintToPrice c.mint with
    | none => Except.error AggErr.unknownMint
    | some p =>
      match scan.custodyPubkeyToBorrowRate pos.collateralCustody with
      | none => Except.error AggErr.missingBorrowRate
      | some r =>
        let pnl := unrealizedPnlOf p pos
        let tr : TradeRec :=
          { address := pk, pnl := pnl, entryPrice := entryPriceOf pos
            side := pos.side, mint := c.mint }
        Except.ok
          { numPositions := s.numPositions + 1
            numLongs := if pos.side = Side.Long then s.numLongs + 1 else s.numLongs
            numWinning := if F.flt (F.fin 0) pnl then s.numWinning + 1 else s.numWinning
            cumulativePositions := F.fadd s.cumulativePositions (currentValueOf p pos)
            cumulativeLong :=
              if pos.side = Side.Long then F.fadd s.cumulativeLong (currentValueOf p pos)
              else s.cumulativeLong
            cumulativePositionsAtEntry :=
              F.fadd s.cumulativePositionsAtEntry (F.fin (entryValueOf pos))
            cumulativeCollateral := F.fadd s.cumulativeCollateral (currentCollateralOf p pos)
            cumulativeCollateralAtEntry :=
              F.fadd s.cumulativeCollateralAtEntry (F.fin (uiAmount pos.collateralUsd))
            cumulativeFees :=
              F.fadd s.cumulativeFees
                (F.fadd (F.fmul (entryFeesOf pool pos) (F.fin 2)) (borrowFeesOf r now pos))
            cumulativePnl := F.fadd s.cumulativePnl pnl
            highestUnrealizedProfit :=
              if F.flt (F.fin 0) pnl then
                (if F.flt s.highestUnrealizedProfit pnl then pnl else s.highestUnrealizedProfit)
              else s.highestUnrealizedProfit
            highestUnrealizedLosses :=
              if F.flt pnl s.highestUnrealizedLosses then pnl else s.highestUnrealizedLosses
            mostProfitableTrade :=
              if F.flt (F.fin 0) pnl then
                (if F.flt s.highestUnrealizedProfit pnl then tr else s.mostProfitableTrade)
              else s.mostProfitableTrade
            leastProfitableTrade :=
              if F.flt pnl s.highestUnrealizedLosses then tr else s.leastProfitableTrade }

/-- The position loop folded over the fetched position accounts; an error in
any iteration aborts the run (the `.unwrap()` panic). -/
def runPositions (pool : Pool) (scan : CustodyScan) (now : ℕ) :
    AggState → List (ℕ × Position) → Except AggErr AggState
  | s, [] => Except.ok s
  | s, (pk, pos) :: rest =>
    match stepPosition pool scan now s pk pos with
    | Except.error e => Except.error e
    | Except.ok s1 => runPositions pool scan now s1 rest

/-- The scan's outputs that are computed after the loop (`main`
lines 285-289). -/
structure Report where
  finalState : AggState
  averageLeverageAtEntry : F
  averageEffectiveLeverage : F
  numShort : ℕ

/-- The whole pipeline on decoded inputs: custody stage, position loop, then
the two average-leverage ratios `cumulative_positions_at_entry /
cumulative_collateral_at_entry` and `cumulative_positions /
cumulative_collateral`. -/
def runScan (pool : Pool) (cs : List (ℕ × Custody × ℚ)) (now : ℕ)
    (ps : List (ℕ × Position)) : Except AggErr Report :=
  let scan := runCustodyScan cs
  match runPositions pool scan now initAgg ps with
  | Except.error e => Except.error e
  | Except.ok s =>
    Except.ok
      { finalState := s
        averageLeverageAtEntry :=
          F.fdiv s.cumulativePositionsAtEntry s.cumulativeCollateralAtEntry
        averageEffectiveLeverage :=
          F.fdiv s.cumulativePositions s.cumulativeCollateral
        numShort := s.numPositions - s.numLongs }

/-- The sum of `assets.owned` over the custody entries classified stable. -/
def stableOwnedSum (cs : List (ℕ × Custody × ℚ)) : ℕ :=
  ((cs.filter fun e => isStablePrice e.2.2).map fun e => e.2.1.assets.owned).sum

/-- The sum of `assets.locked` over the custody entries classified stable. -/
def stableLockedSum (cs : List (ℕ × Custody × ℚ)) : ℕ :=
  ((cs.filter fun e => isStablePrice e.2.2).map fun e => e.2.1.assets.locked).sum

theorem F.fadd_fin (a b : ℚ) : F.fadd (F.fin a) (F.fin b) = F.fin (a + b) := rfl

theorem F.fneg_fin (a : ℚ) : F.fneg (F.fin a) = F.fin (-a) := rfl

theorem F.fsub_fin (a b : ℚ) : F.fsub (F.fin a) (F.fin b) = F.fin (a - b) := by
  simp [F.fsub, F.fneg, F.fadd, sub_eq_add_neg]

theorem F.fmul_fin (a b : ℚ) : F.fmul (F.fin a) (F.fin b) = F.fin (a * b) := rfl

theorem F.fdiv_fin (a b : ℚ) (h : b ≠ 0) :
    F.fdiv (F.fin a) (F.fin b) = F.fin (a / b) := by
  simp [F.fdiv, h]

theorem foldl_custodyStep_stable (cs : List (ℕ × Custody × ℚ)) :
    ∀ s : CustodyScan, (cs.foldl custodyStep s).stableCustodys =
      s.stableCustodys ++ ((cs.filter fun e => isStablePrice e.2.2).map fun e => e.1) := by
  induction cs with
  | nil => intro s; simp
  | cons e rest ih =>
    intro s
    cases hst : isStablePrice e.2.2 with
    | true => simp [custodyStep, hst, ih, List.filter_cons]
    | false => simp [custodyStep, hst, ih, List.filter_cons]

/-- C7: the Price Resolver classifies a custody as stable if and only if its
oracle price rounds (ties away from zero, as Rust `f64::round`) to exactly
1.0: the custody addresses collected as stable are exactly those whose price
satisfies `round(price) == 1.0`, with the boundary values 0.49 (volatile),
0.5 (stable), 1.49 (stable) and 1.5 (volatile). -/
theorem C7_stable_classification :
    (∀ cs : List (ℕ × Custody × ℚ),
      (runCustodyScan cs).stableCustodys =
        (cs.filter fun e => isStablePrice e.2.2).map fun e => e.1) ∧
    isStablePrice (49 / 100) = false ∧
    isStablePrice (1 / 2) = true ∧
    isStablePrice (149 / 100) = true ∧
    isStablePrice (3 / 2) = false ∧
    ∀ p : ℚ, isStablePrice p = true ↔ roundAwayFromZero p = 1 := by
  refine ⟨?_, by norm_num [isStablePrice, roundAwayFromZero],
    by norm_num [isStablePrice, roundAwayFromZero],
    by norm_num [isStablePrice, roundAwayFromZero],
    by norm_num [isStablePrice, roundAwayFromZero], ?_⟩
  · intro cs
    simp [runCustodyScan, foldl_custodyStep_stable, emptyScan]
  · intro p
    simp [isStablePrice]

/-- C10: the elapsed-time computation of the position loop is the wrapping
`u64` subtraction `(now - updateTime) mod 2^64`: it equals `now - updateTime`
exactly when `0 ≤ updateTime ≤ now` (and `now` fits in a `u64`), and on the
concrete input `now = 100`, `updateTime = 101` it underflows to
`2^64 - 1` instead of yielding the negative elapsed time `-1`. -/
theorem C10_elapsed_u64 :
    (∀ (now : ℕ) (t : ℤ), 0 ≤ t → t ≤ (now : ℤ) → (now : ℤ) < 2 ^ 64 →
      (elapsedU64 now t : ℤ) = (now : ℤ) - t) ∧
    elapsedU64 100 101 = 2 ^ 64 - 1 ∧ (elapsedU64 100 101 : ℤ) ≠ (100 : ℤ) - 101 := by
  refine ⟨?_, by decide, by decide⟩
  intro now t h0 h1 h2
  unfold elapsedU64
  rw [Int.emod_eq_of_lt (by omega) (by omega)]
  rw [Int.toNat_of_nonneg (by omega)]

/-- Witness for C10 at `now = 10`, `updateTime = 3`. -/
theorem C10_witness : (elapsedU64 10 3 : ℤ) = (10 : ℤ) - 3 :=
  C10_elapsed_u64.1 10 3 (by decide) (by decide) (by decide)

/-- A volatile custody with `owned == 0` (and positive `locked`). -/
def c2custody : Custody :=
  { mint := 5
    assets := { owned := 0, locked := 500000000000 }
    fundingRateState := { hourlyFundingBps := 10 } }

/-- C2 counterexample: for a custody with oracle price 100 (volatile) and
`owned == 0`, the custody stage completes and stores the non-finite value
`+inf` in the borrow-rate table; no `InsufficientLiquidityData` error (or any
error) is produced. -/
theorem C2_counterexample :
    (runCustodyScan [(7, c2custody, (100 : ℚ))]).custodyPubkeyToBorrowRate 7 =
      some F.pinf := by
  have h100 : isStablePrice (100 : ℚ) = false := by
    norm_num [isStablePrice, roundAwayFromZero]
  simp only [runCustodyScan, List.foldl, custodyStep, h100, Bool.false_eq_true,
    if_false, emptyScan, insertStableRates, insertFn, if_pos rfl]
  norm_num [volatileRate, c2custody, uiAmount, F.fdiv, F.fmul]

/-- C2 amended: for every volatile custody the derived hourly borrow rate is
`(locked / owned) * hourlyFundingBps` (in basis points) whenever
`owned ≠ 0`; when `owned == 0` the derivation does not fail with an error but
silently produces a non-finite `f64` value (infinity or NaN), which is stored
in the borrow-rate table. -/
theorem C2_volatile_rate (c : Custody) :
    (c.assets.owned ≠ 0 →
      volatileRate c =
        F.fin (((c.assets.locked : ℚ) / (c.assets.owned : ℚ)) *
          (c.fundingRateState.hourlyFundingBps : ℚ))) ∧
    (c.assets.owned = 0 → ∀ q : ℚ, volatileRate c ≠ F.fin q) := by
  constructor
  · intro h
    have ho : (uiAmount c.assets.owned) ≠ 0 := by
      simp [uiAmount, h]
    unfold volatileRate
    rw [F.fdiv_fin _ _ ho, F.fmul_fin]
    congr 1
    unfold uiAmount
    have hoq : (c.assets.owned : ℚ) ≠ 0 := by exact_mod_cast h
    field_simp
  · intro h q
    have h0 : uiAmount c.assets.owned = 0 := by simp [uiAmount, h]
    rcases Nat.eq_zero_or_pos c.assets.locked with hl | hl
    · have hl0 : uiAmount c.assets.locked = 0 := by simp [uiAmount, hl]
      simp [volatileRate, h0, hl0, F.fdiv, F.fmul]
    · have hlp : 0 < uiAmount c.assets.locked := by
        have hq : (0 : ℚ) < (c.assets.locked : ℚ) := by exact_mod_cast hl
        unfold uiAmount
        positivity
      rcases Nat.eq_zero_or_pos c.fundingRateState.hourlyFundingBps with hb | hb
    /- with zero funding bps the product `inf * 0` is NaN, still non-finite -/
      · simp [volatileRate, h0, ne_of_gt hlp, hlp, F.fdiv, F.fmul, hb]
      · have hbq : (0 : ℚ) < (c.fundingRateState.hourlyFundingBps : ℚ) := by
          exact_mod_cast hb
        simp [volatileRate, h0, ne_of_gt hlp, hlp, F.fdiv, F.fmul, ne_of_gt hbq, hbq]

/-- C1: for every active position (`size_usd != 0`) whose custody lookup
succeeds, the loop resolves the mint from that custody and the current price
from the price map under that mint, and it fails with precisely the
unknown-mint failure (the `.unwrap()` on the price lookup), and with no other
failure, exactly when that mint is absent from the price map. -/
theorem C1_unknown_mint (pool : Pool) (scan : CustodyScan) (now : ℕ) (s : AggState)
    (pk : ℕ) (pos : Position) (c : Custody)
    (hsz : pos.sizeUsd ≠ 0) (hc : scan.pubkeyToCustody pos.custody = some c) :
    stepPosition pool scan now s pk pos = Except.error AggErr.unknownMint ↔
      scan.mintToPrice c.mint = none := by
  simp only [stepPosition, if_neg hsz, hc]
  cases hp : scan.mintToPrice c.mint with
  | none => simp
  | some p =>
    simp only [hp]
    cases hr : scan.custodyPubkeyToBorrowRate pos.collateralCustody with
    | none => simp
    | some r => simp

/-- A stable custody for the C1 witness: its mint is never inserted into the
price map by the custody stage. -/
def c1custody : Custody :=
  { mint := 9
    assets := { owned := 1000000, locked := 0 }
    fundingRateState := { hourlyFundingBps := 10 } }

/-- A position whose custody is the stable custody of the C1 witness. -/
def c1pos : Position :=
  { sizeUsd := 5000000
    price := 2000000
    collateralUsd := 1000000
    custody := 7
    collateralCustody := 7
    side := Side.Long
    updateTime := 0 }

def c1pool : Pool := { aumUsd := 0, fees := { increasePositionBps := 100 } }

/-- Witness for C1: a position on a stable custody (oracle price 1) hits the
unknown-mint failure, because the custody stage records prices only for
volatile mints. -/
theorem C1_witness :
    stepPosition c1pool (runCustodyScan [(7, c1custody, (1 : ℚ))]) 3600 initAgg 3 c1pos =
      Except.error AggErr.unknownMint := by
  have hst : isStablePrice (1 : ℚ) = true := by
    norm_num [isStablePrice, roundAwayFromZero]
  have hc : (runCustodyScan [(7, c1custody, (1 : ℚ))]).pubkeyToCustody c1pos.custody =
      some c1custody := by
    simp [runCustodyScan, List.foldl, custodyStep, hst, emptyScan, insertFn, c1pos]
  have hm : (runCustodyScan [(7, c1custody, (1 : ℚ))]).mintToPrice c1custody.mint = none := by
    simp [runCustodyScan, List.foldl, custodyStep, hst, emptyScan]
  exact (C1_unknown_mint c1pool _ 3600 initAgg 3 c1pos c1custody (by decide) hc).mpr hm

theorem stableOwnedSum_cons (e : ℕ × Custody × ℚ) (rest : List (ℕ × Custody × ℚ)) :
    stableOwnedSum (e :: rest) =
      (if isStablePrice e.2.2 then e.2.1.assets.owned else 0) + stableOwnedSum rest := by
  by_cases h : isStablePrice e.2.2 <;> simp [stableOwnedSum, List.filter_cons, h]

theorem stableLockedSum_cons (e : ℕ × Custody × ℚ) (rest : List (ℕ × Custody × ℚ)) :
    stableLockedSum (e :: rest) =
      (if isStablePrice e.2.2 then e.2.1.assets.locked else 0) + stableLockedSum rest := by
  by_cases h : isStablePrice e.2.2 <;> simp [stableLockedSum, List.filter_cons, h]

theorem foldl_custodyStep_stableAum (cs : List (ℕ × Custody × ℚ)) :
    ∀ s : CustodyScan, s.stableAum < 2 ^ 64 →
      (cs.foldl custodyStep s).stableAum = (s.stableAum + stableOwnedSum cs) % 2 ^ 64 := by
  induction cs with
  | nil =>
    intro s h
    simp only [List.foldl_nil, stableOwnedSum, List.filter_nil, List.map_nil, List.sum_nil,
      Nat.add_zero]
    exact (Nat.mod_eq_of_lt h).symm
  | cons e rest ih =>
    intro s h
    rw [List.foldl_cons, stableOwnedSum_cons]
    cases hst : isStablePrice e.2.2 with
    | true =>
      have hnew : (custodyStep s e).stableAum = (s.stableAum + e.2.1.assets.owned) % 2 ^ 64 := by
        simp [custodyStep, hst, u64Wrap]
      rw [ih (custodyStep s e) (by rw [hnew]; exact Nat.mod_lt _ (by norm_num)), hnew,
        Nat.mod_add_mod, if_pos rfl, Nat.add_assoc]
    | false =>
      have hnew : (custodyStep s e).stableAum = s.stableAum := by
        simp [custodyStep, hst]
      rw [ih (custodyStep s e) (by rw [hnew]; exact h), hnew]
      simp

theorem foldl_custodyStep_stableBorrow (cs : List (ℕ × Custody × ℚ)) :
    ∀ s : CustodyScan, s.stableBorrow < 2 ^ 64 →
      (cs.foldl custodyStep s).stableBorrow = (s.stableBorrow + stableLockedSum cs) % 2 ^ 64 := by
  induction cs with
  | nil =>
    intro s h
    simp only [List.foldl_nil, stableLockedSum, List.filter_nil, List.map_nil, List.sum_nil,
      Nat.add_zero]
    exact (Nat.mod_eq_of_lt h).symm
  | cons e rest ih =>
    intro s h
    rw [List.foldl_cons, stableLockedSum_cons]
    cases hst : isStablePrice e.2.2 with
    | true =>
      have hnew : (custodyStep s e).stableBorrow = (s.stableBorrow + e.2.1.assets.locked) % 2 ^ 64 := by
        simp [custodyStep, hst, u64Wrap]
      rw [ih (custodyStep s e) (by rw [hnew]; exact Nat.mod_lt _ (by norm_num)), hnew,
        Nat.mod_add_mod, if_pos rfl, Nat.add_assoc]
    | false =>
      have hnew : (custodyStep s e).stableBorrow = s.stableBorrow := by
        simp [custodyStep, hst]
      rw [ih (custodyStep s e) (by rw [hnew]; exact h), hnew]
      simp

theorem insertStableRates_not_mem (r : F) (a : ℕ) :
    ∀ (l : List ℕ) (m : ℕ → Option F), a ∉ l → insertStableRates m r l a = m a := by
  intro l
  induction l with
  | nil => intro m _; rfl
  | cons b rest ih =>
    intro m h
    rw [insertStableRates, ih _ (fun hh => h (List.mem_cons_of_mem _ hh)), insertFn,
      if_neg (fun he : a = b => h (he ▸ List.mem_cons_self b rest))]

theorem insertStableRates_mem (r : F) (a : ℕ) :
    ∀ (l : List ℕ) (m : ℕ → Option F), a ∈ l → insertStableRates m r l a = some r := by
  intro l
  induction l with
  | nil => intro m h; cases h
  | cons b rest ih =>
    intro m h
    by_cases hr : a ∈ rest
    · exact ih _ hr
    · have hab : a = b := by
        rcases List.mem_cons.1 h with h1 | h2
        · exact h1
        · exact absurd h2 hr
      rw [insertStableRates, insertStableRates_not_mem _ _ _ _ hr, insertFn, if_pos hab]

/-- C3: any two custodies classified stable in the same scan receive
literally the same borrow rate, and (as long as the two `u64` accumulators do
not wrap) it is the pooled ratio `(Σ locked) / (Σ owned)` over all stable
custodies, taken as the `f64` quotient of the raw integer sums — not a
per-custody utilization. -/
theorem C3_stable_rate_uniform (cs : List (ℕ × Custody × ℚ)) (a1 a2 : ℕ)
    (h1 : a1 ∈ (runCustodyScan cs).stableCustodys)
    (h2 : a2 ∈ (runCustodyScan cs).stableCustodys)
    (ho : stableOwnedSum cs < 2 ^ 64) (hl : stableLockedSum cs < 2 ^ 64) :
    (runCustodyScan cs).custodyPubkeyToBorrowRate a1 =
      (runCustodyScan cs).custodyPubkeyToBorrowRate a2 ∧
    (runCustodyScan cs).custodyPubkeyToBorrowRate a1 =
      some (F.fdiv (F.fin (stableLockedSum cs : ℚ)) (F.fin (stableOwnedSum cs : ℚ))) := by
  have hmem : ∀ a, a ∈ (runCustodyScan cs).stableCustodys →
      (runCustodyScan cs).custodyPubkeyToBorrowRate a =
        some (F.fdiv (F.fin ((cs.foldl custodyStep emptyScan).stableBorrow : ℚ))
          (F.fin ((cs.foldl custodyStep emptyScan).stableAum : ℚ))) := by
    intro a ha
    have ha2 : a ∈ (cs.foldl custodyStep emptyScan).stableCustodys := by
      simpa [runCustodyScan] using ha
    simp only [runCustodyScan]
    exact insertStableRates_mem _ _ _ _ ha2
  have haum : (cs.foldl custodyStep emptyScan).stableAum = stableOwnedSum cs := by
    rw [foldl_custodyStep_stableAum cs emptyScan (by norm_num [emptyScan]),
      show emptyScan.stableAum = 0 from rfl, Nat.zero_add]
    exact Nat.mod_eq_of_lt ho
  have hbor : (cs.foldl custodyStep emptyScan).stableBorrow = stableLockedSum cs := by
    rw [foldl_custodyStep_stableBorrow cs emptyScan (by norm_num [emptyScan]),
      show emptyScan.stableBorrow = 0 from rfl, Nat.zero_add]
    exact Nat.mod_eq_of_lt hl
  refine ⟨?_, ?_⟩
  · rw [hmem a1 h1, hmem a2 h2]
  · rw [hmem a1 h1, haum, hbor]

/-- Two stable custodies for the C3 witness. -/
def c3custody1 : Custody :=
  { mint := 11
    assets := { owned := 3000000, locked := 1000000 }
    fundingRateState := { hourlyFundingBps := 1 } }

def c3custody2 : Custody :=
  { mint := 12
    assets := { owned := 5000000, locked := 2000000 }
    fundingRateState := { hourlyFundingBps := 1 } }

/-- Witness for C3 on a scan of two stable custodies (oracle price 1). -/
theorem C3_witness :
    (runCustodyScan [(1, c3custody1, (1 : ℚ)), (2, c3custody2, (1 : ℚ))]).custodyPubkeyToBorrowRate 1 =
      (runCustodyScan [(1, c3custody1, (1 : ℚ)), (2, c3custody2, (1 : ℚ))]).custodyPubkeyToBorrowRate 2 ∧
    (runCustodyScan [(1, c3custody1, (1 : ℚ)), (2, c3custody2, (1 : ℚ))]).custodyPubkeyToBorrowRate 1 =
      some (F.fdiv
        (F.fin (stableLockedSum [(1, c3custody1, (1 : ℚ)), (2, c3custody2, (1 : ℚ))] : ℚ))
        (F.fin (stableOwnedSum [(1, c3custody1, (1 : ℚ)), (2, c3custody2, (1 : ℚ))] : ℚ))) := by
  have hst : isStablePrice (1 : ℚ) = true := by
    norm_num [isStablePrice, roundAwayFromZero]
  refine C3_stable_rate_uniform _ 1 2 ?_ ?_ ?_ ?_
  · simp [runCustodyScan, List.foldl, custodyStep, hst, emptyScan]
  · simp [runCustodyScan, List.foldl, custodyStep, hst, emptyScan]
  · norm_num [stableOwnedSum, List.filter_cons, hst, c3custody1, c3custody2]
  · norm_num [stableLockedSum, List.filter_cons, hst, c3custody1, c3custody2]

/-- A volatile custody with nonzero liquidity for the C2 witness. -/
def c2wcustody : Custody :=
  { mint := 5
    assets := { owned := 2000000000000, locked := 1000000000000 }
    fundingRateState := { hourlyFundingBps := 10 } }

/-- Witness for C2 at a custody with `owned = 2_000_000_000000`,
`locked = 1_000_000_000000`, 10 bps, and at the `owned == 0` custody. -/
theorem C2_witness :
    volatileRate c2wcustody =
      F.fin (((c2wcustody.assets.locked : ℚ) / (c2wcustody.assets.owned : ℚ)) *
        (c2wcustody.fundingRateState.hourlyFundingBps : ℚ)) ∧
    ∀ q : ℚ, volatileRate c2custody ≠ F.fin q :=
  ⟨(C2_volatile_rate c2wcustody).1 (by decide), (C2_volatile_rate c2custody).2 rfl⟩

theorem elapsedU64_of_le (now : ℕ) (t : ℤ) (h0 : 0 ≤ t) (h1 : t ≤ (now : ℤ))
    (h2 : (now : ℤ) < 2 ^ 64) : (elapsedU64 now t : ℤ) = (now : ℤ) - t := by
  unfold elapsedU64
  rw [Int.emod_eq_of_lt (by omega) (by omega), Int.toNat_of_nonneg (by omega)]

/-- C4: for every active position with nonzero entry price, with the
directional sign `+1` for Long and `-1` for Short: `amount = sizeUsd /
entryPrice`, `currentValue = amount * currentPrice`, `currentCollateral =
entryCollateral + sign * amount * (currentPrice - entryPrice)` and
`unrealizedPnl = sign * (currentValue - entryValue)` (display units; exact
rational arithmetic). -/
theorem C4_position_formulas (p : ℚ) (pos : Position) (hpr : pos.price ≠ 0) :
    amountOf pos = F.fin (entryValueOf pos / entryPriceOf pos) ∧
    currentValueOf p pos = F.fin ((entryValueOf pos / entryPriceOf pos) * p) ∧
    currentCollateralOf p pos =
      F.fin (uiAmount pos.collateralUsd +
        signOf pos.side * (entryValueOf pos / entryPriceOf pos) * (p - entryPriceOf pos)) ∧
    unrealizedPnlOf p pos =
      F.fin (signOf pos.side *
        ((entryValueOf pos / entryPriceOf pos) * p - entryValueOf pos)) := by
  have hq : (pos.price : ℚ) ≠ 0 := Nat.cast_ne_zero.mpr hpr
  have hav : amountOf pos = F.fin (entryValueOf pos / entryPriceOf pos) := by
    rw [amountOf, F.fdiv_fin _ _ hq]
    congr 1
    unfold entryValueOf entryPriceOf uiAmount
    field_simp
  refine ⟨hav, ?_, ?_, ?_⟩
  · rw [currentValueOf, hav, F.fmul_fin]
  · rw [currentCollateralOf, hav, F.fsub_fin, F.fmul_fin, F.fmul_fin, F.fadd_fin]
    congr 1
    ring
  · rw [unrealizedPnlOf, currentValueOf, hav, F.fmul_fin, F.fsub_fin, F.fmul_fin]
    congr 1
    ring

/-- A Short position for the C4 witness. -/
def c4pos : Position :=
  { sizeUsd := 200000000
    price := 2000000
    collateralUsd := 50000000
    custody := 1
    collateralCustody := 1
    side := Side.Short
    updateTime := 0 }

/-- Witness for C4 at a concrete Short position and current price 3. -/
theorem C4_witness :
    amountOf c4pos = F.fin (entryValueOf c4pos / entryPriceOf c4pos) ∧
    currentValueOf 3 c4pos = F.fin ((entryValueOf c4pos / entryPriceOf c4pos) * 3) ∧
    currentCollateralOf 3 c4pos =
      F.fin (uiAmount c4pos.collateralUsd +
        signOf c4pos.side * (entryValueOf c4pos / entryPriceOf c4pos) * (3 - entryPriceOf c4pos)) ∧
    unrealizedPnlOf 3 c4pos =
      F.fin (signOf c4pos.side *
        ((entryValueOf c4pos / entryPriceOf c4pos) * 3 - entryValueOf c4pos)) :=
  C4_position_formulas 3 c4pos (by decide)

/-- C5: for every active position whose three lookups succeed and whose
`updateTime` lies in `[0, now]`, the amount added to the cumulative fee total
is exactly `entryFees * 2 + borrowFees`, with `entryFees = entryValue *
increasePositionBps / 10000` and `borrowFees = borrowRate(collateralCustody)
* elapsedHours * entryValue / 10000`, `elapsedHours = (now - updateTime) /
3600`. -/
theorem C5_fee_contribution (pool : Pool) (scan : CustodyScan) (now : ℕ)
    (s : AggState) (pk : ℕ) (pos : Position) (c : Custody) (p : ℚ) (r : F)
    (hsz : pos.sizeUsd ≠ 0) (hc : scan.pubkeyToCustody pos.custody = some c)
    (hp : scan.mintToPrice c.mint = some p)
    (hr : scan.custodyPubkeyToBorrowRate pos.collateralCustody = some r)
    (ht0 : 0 ≤ pos.updateTime) (ht1 : pos.updateTime ≤ (now : ℤ))
    (hn : (now : ℤ) < 2 ^ 64) :
    (stepPosition pool scan now s pk pos).map (fun s1 => s1.cumulativeFees) =
      Except.ok (F.fadd s.cumulativeFees
        (F.fadd
          (F.fmul (F.fin (entryValueOf pos * (pool.fees.increasePositionBps : ℚ) / 10000))
            (F.fin 2))
          (F.fdiv
            (F.fmul (F.fmul r (F.fin (((now : ℚ) - (pos.updateTime : ℚ)) / 3600)))
              (F.fin (entryValueOf pos)))
            (F.fin 10000)))) := by
  have hint : intervalOf now pos = F.fin (((now : ℚ) - (pos.updateTime : ℚ)) / 3600) := by
    rw [intervalOf, F.fdiv_fin _ _ (by norm_num : (3600 : ℚ) ≠ 0)]
    congr 1
    have he := elapsedU64_of_le now pos.updateTime ht0 ht1 hn
    rw [div_left_inj']
    · exact_mod_cast he
    · norm_num
  have hef : entryFeesOf pool pos =
      F.fin (entryValueOf pos * (pool.fees.increasePositionBps : ℚ) / 10000) := by
    rw [entryFeesOf, F.fmul_fin, F.fdiv_fin _ _ (by norm_num : (10000 : ℚ) ≠ 0)]
  simp only [stepPosition, if_neg hsz, hc, hp, hr, Except.map, borrowFeesOf, hint, hef]

/-- The C9 scenario custody: `owned = 1_000_000_000000`,
`locked = 500_000_000000`, 10 bps hourly funding, mint 5. -/
def c9custody : Custody :=
  { mint := 5
    assets := { owned := 1000000000000, locked := 500000000000 }
    fundingRateState := { hourlyFundingBps := 10 } }

/-- The C9 scenario pool: `aumUsd = 5_000_000_000000`. -/
def c9pool : Pool := { aumUsd := 5000000000000, fees := { increasePositionBps := 100 } }

/-- The C9 scan timestamp. -/
def c9now : ℕ := 1700000000

/-- The C9 scenario position: `sizeUsd = 100_000_000000`, entry price
`90_000000`, Long, touched one hour before the scan. -/
def c9pos : Position :=
  { sizeUsd := 100000000000
    price := 90000000
    collateralUsd := 10000000000
    custody := 7
    collateralCustody := 7
    side := Side.Long
    updateTime := 1699996400 }

/-- Witness for C5 on the C9 scenario (borrow rate table entry of custody 7). -/
theorem C5_witness :
    (stepPosition c9pool (runCustodyScan [(7, c9custody, (100 : ℚ))]) c9now initAgg 3
        c9pos).map (fun s1 => s1.cumulativeFees) =
      Except.ok (F.fadd initAgg.cumulativeFees
        (F.fadd
          (F.fmul
            (F.fin (entryValueOf c9pos * (c9pool.fees.increasePositionBps : ℚ) / 10000))
            (F.fin 2))
          (F.fdiv
            (F.fmul
              (F.fmul (volatileRate c9custody)
                (F.fin (((c9now : ℚ) - (c9pos.updateTime : ℚ)) / 3600)))
              (F.fin (entryValueOf c9pos)))
            (F.fin 10000)))) := by
  have hvol : isStablePrice (100 : ℚ) = false := by
    norm_num [isStablePrice, roundAwayFromZero]
  refine C5_fee_contribution c9pool _ c9now initAgg 3 c9pos c9custody 100
    (volatileRate c9custody) (by decide) ?_ ?_ ?_ (by decide) (by decide) (by decide)
  · simp [runCustodyScan, List.foldl, custodyStep, hvol, emptyScan, insertFn, c9pos,
      insertStableRates]
  · simp [runCustodyScan, List.foldl, custodyStep, hvol, emptyScan, insertFn, c9custody,
      insertStableRates]
  · simp [runCustodyScan, List.foldl, custodyStep, hvol, emptyScan, insertFn, c9pos,
      insertStableRates]

/-- C6: the most-profitable-trade holder changes only on a position whose
unrealized PnL is strictly greater than both zero (the outer guard) and the
running maximum, the least-profitable-trade holder changes only on a position
whose unrealized PnL is strictly less than the running minimum, and both
running extrema start at 0 — so a zero-or-negative PnL never takes the
most-profitable slot and a tie never displaces the first-seen holder. -/
theorem C6_extremal_trades :
    initAgg.highestUnrealizedProfit = F.fin 0 ∧
    initAgg.highestUnrealizedLosses = F.fin 0 ∧
    ∀ (pool : Pool) (scan : CustodyScan) (now : ℕ) (s : AggState) (pk : ℕ)
      (pos : Position) (c : Custody) (p : ℚ) (r : F),
      scan.pubkeyToCustody pos.custody = some c →
      scan.mintToPrice c.mint = some p →
      scan.custodyPubkeyToBorrowRate pos.collateralCustody = some r →
      ((stepPosition pool scan now s pk pos).map (fun s1 => s1.mostProfitableTrade) ≠
          Except.ok s.mostProfitableTrade →
        F.flt s.highestUnrealizedProfit (unrealizedPnlOf p pos) = true ∧
        F.flt (F.fin 0) (unrealizedPnlOf p pos) = true) ∧
      ((stepPosition pool scan now s pk pos).map (fun s1 => s1.leastProfitableTrade) ≠
          Except.ok s.leastProfitableTrade →
        F.flt (unrealizedPnlOf p pos) s.highestUnrealizedLosses = true) := by
  refine ⟨rfl, rfl, ?_⟩
  intro pool scan now s pk pos c p r hc hp hr
  by_cases hsz : pos.sizeUsd = 0
  · constructor
    · intro hne
      exact absurd (by simp [stepPosition, hsz, Except.map]) hne
    · intro hne
      exact absurd (by simp [stepPosition, hsz, Except.map]) hne
  · constructor
    · intro hne
      by_cases hA : F.flt (F.fin 0) (unrealizedPnlOf p pos) = true
      · by_cases hB : F.flt s.highestUnrealizedProfit (unrealizedPnlOf p pos) = true
        · exact ⟨hB, hA⟩
        · exact absurd (by simp [stepPosition, hsz, hc, hp, hr, hA, hB, Except.map]) hne
      · exact absurd (by simp [stepPosition, hsz, hc, hp, hr, hA, Except.map]) hne
    · intro hne
      by_cases hL : F.flt (unrealizedPnlOf p pos) s.highestUnrealizedLosses = true
      · exact hL
      · exact absurd (by simp [stepPosition, hsz, hc, hp, hr, hL, Except.map]) hne

/-- Witness for C6 on the C9 scenario, whose single position strictly exceeds
the zero-initialized running maximum and takes the most-profitable slot. -/
theorem C6_witness :
    F.flt initAgg.highestUnrealizedProfit (unrealizedPnlOf 100 c9pos) = true ∧
    F.flt (F.fin 0) (unrealizedPnlOf 100 c9pos) = true := by
  have hvol : isStablePrice (100 : ℚ) = false := by
    norm_num [isStablePrice, roundAwayFromZero]
  have hsz : c9pos.sizeUsd ≠ 0 := by decide
  have hc : (runCustodyScan [(7, c9custody, (100 : ℚ))]).pubkeyToCustody c9pos.custody =
      some c9custody := by
    simp [runCustodyScan, List.foldl, custodyStep, hvol, emptyScan, insertFn, c9pos,
      insertStableRates]
  have hp : (runCustodyScan [(7, c9custody, (100 : ℚ))]).mintToPrice c9custody.mint =
      some 100 := by
    simp [runCustodyScan, List.foldl, custodyStep, hvol, emptyScan, insertFn, c9custody,
      insertStableRates]
  have hr : (runCustodyScan
        [(7, c9custody, (100 : ℚ))]).custodyPubkeyToBorrowRate c9pos.collateralCustody =
      some (volatileRate c9custody) := by
    simp [runCustodyScan, List.foldl, custodyStep, hvol, emptyScan, insertFn, c9pos,
      insertStableRates]
  have hpnl : unrealizedPnlOf 100 c9pos = F.fin (100000 / 9) := by
    norm_num [unrealizedPnlOf, currentValueOf, amountOf, entryValueOf, uiAmount, F.fdiv,
      F.fmul, F.fsub, F.fneg, F.fadd, signOf, c9pos]
  have hflt0 : F.flt (F.fin 0) (unrealizedPnlOf 100 c9pos) = true := by
    rw [hpnl]
    simp only [F.flt, decide_eq_true_eq]
    norm_num
  have hfltmax : F.flt initAgg.highestUnrealizedProfit (unrealizedPnlOf 100 c9pos) = true := by
    rw [hpnl, show initAgg.highestUnrealizedProfit = F.fin 0 from rfl]
    simp only [F.flt, decide_eq_true_eq]
    norm_num
  refine (C6_extremal_trades.2.2 c9pool _ c9now initAgg 3 c9pos c9custody 100
    (volatileRate c9custody) hc hp hr).1 ?_
  simp [stepPosition, hsz, hc, hp, hr, hflt0, hfltmax, initAgg, Except.map]

theorem runPositions_all_zero (pool : Pool) (scan : CustodyScan) (now : ℕ) :
    ∀ (ps : List (ℕ × Position)) (s : AggState),
      (∀ x ∈ ps, x.2.sizeUsd = 0) → runPositions pool scan now s ps = Except.ok s := by
  intro ps
  induction ps with
  | nil => intro s _; rfl
  | cons x rest ih =>
    intro s h
    obtain ⟨pk, pos⟩ := x
    have hx : pos.sizeUsd = 0 := h (pk, pos) (List.mem_cons_self _ _)
    simp only [runPositions,
      show stepPosition pool scan now s pk pos = Except.ok s from by simp [stepPosition, hx]]
    exact ih s (fun y hy => h y (List.mem_cons_of_mem _ hy))

/-- C8: a scan in which every position is inactive (`sizeUsd = 0`, in
particular a scan with no positions at all) completes without error and
reports the IEEE NaN sentinel (the 0.0 / 0.0 quotient) for both the
at-entry and the effective average-leverage ratios. -/
theorem C8_zero_positions_nan (pool : Pool) (cs : List (ℕ × Custody × ℚ)) (now : ℕ)
    (ps : List (ℕ × Position)) (h : ∀ x ∈ ps, x.2.sizeUsd = 0) :
    (runScan pool cs now ps).map
        (fun r => (r.averageLeverageAtEntry, r.averageEffectiveLeverage)) =
      Except.ok (F.nan, F.nan) := by
  simp only [runScan]
  rw [runPositions_all_zero pool (runCustodyScan cs) now ps initAgg h]
  simp [initAgg, F.fdiv, Except.map]

/-- Witness for C8: the empty scan. -/
theorem C8_witness :
    (runScan c1pool [] 0 []).map
        (fun r => (r.averageLeverageAtEntry, r.averageEffectiveLeverage)) =
      Except.ok (F.nan, F.nan) :=
  C8_zero_positions_nan c1pool [] 0 [] (by simp)

/-- C9: the end-to-end scenario — one pool with `aumUsd = 5_000_000_000000`,
one volatile custody (`owned = 1_000_000_000000`, `locked = 500_000_000000`,
10 bps hourly funding, oracle price 100) and one Long position
(`sizeUsd = 100_000_000000`, entry price `90_000000`, `updateTime = now -
3600`): the derived borrow rate is 5 bps, `amount = 10000/9 ≈ 1111.11`,
`currentValue = 1000000/9 ≈ 111111.11`, `unrealizedPnl = 100000/9 ≈
+11111.11`, `borrowFees = 50`, and the full pipeline's cumulative PnL equals
that unrealized PnL. -/
theorem C9_end_to_end :
    (runCustodyScan [(7, c9custody, (100 : ℚ))]).custodyPubkeyToBorrowRate 7 =
      some (F.fin 5) ∧
    amountOf c9pos = F.fin (10000 / 9) ∧
    currentValueOf 100 c9pos = F.fin (1000000 / 9) ∧
    unrealizedPnlOf 100 c9pos = F.fin (100000 / 9) ∧
    borrowFeesOf (F.fin 5) c9now c9pos = F.fin 50 ∧
    (runScan c9pool [(7, c9custody, (100 : ℚ))] c9now [(3, c9pos)]).map
        (fun r => r.finalState.cumulativePnl) = Except.ok (F.fin (100000 / 9)) ∧
    |(10000 : ℚ) / 9 - 1111.11| < 1 / 100 ∧
    |(1000000 : ℚ) / 9 - 111111.11| < 1 / 100 ∧
    |(100000 : ℚ) / 9 - 11111.11| < 1 / 100 := by
  have hvol : isStablePrice (100 : ℚ) = false := by
    norm_num [isStablePrice, roundAwayFromZero]
  have hsz : c9pos.sizeUsd ≠ 0 := by decide
  have hrate : (runCustodyScan [(7, c9custody, (100 : ℚ))]).custodyPubkeyToBorrowRate 7 =
      some (volatileRate c9custody) := by
    simp [runCustodyScan, List.foldl, custodyStep, hvol, emptyScan, insertFn,
      insertStableRates]
  have hval : volatileRate c9custody = F.fin 5 := by
    norm_num [volatileRate, c9custody, uiAmount, F.fdiv, F.fmul]
  have hc : (runCustodyScan [(7, c9custody, (100 : ℚ))]).pubkeyToCustody c9pos.custody =
      some c9custody := by
    simp [runCustodyScan, List.foldl, custodyStep, hvol, emptyScan, insertFn, c9pos,
      insertStableRates]
  have hp : (runCustodyScan [(7, c9custody, (100 : ℚ))]).mintToPrice c9custody.mint =
      some 100 := by
    simp [runCustodyScan, List.foldl, custodyStep, hvol, emptyScan, insertFn, c9custody,
      insertStableRates]
  have hr : (runCustodyScan
        [(7, c9custody, (100 : ℚ))]).custodyPubkeyToBorrowRate c9pos.collateralCustody =
      some (volatileRate c9custody) := by
    simp [runCustodyScan, List.foldl, custodyStep, hvol, emptyScan, insertFn, c9pos,
      insertStableRates]
  have hpnl : unrealizedPnlOf 100 c9pos = F.fin (100000 / 9) := by
    norm_num [unrealizedPnlOf, currentValueOf, amountOf, entryValueOf, uiAmount, F.fdiv,
      F.fmul, F.fsub, F.fneg, F.fadd, signOf, c9pos]
  refine ⟨by rw [hrate, hval], ?_, ?_, hpnl, ?_, ?_, ?_, ?_, ?_⟩
  · norm_num [amountOf, c9pos, F.fdiv]
  · norm_num [currentValueOf, amountOf, c9pos, F.fdiv, F.fmul]
  · norm_num [borrowFeesOf, intervalOf, elapsedU64, c9now, c9pos, entryValueOf, uiAmount,
      F.fdiv, F.fmul, show Int.toNat 3600 = 3600 from rfl]
  · simp only [runScan, runPositions, stepPosition, if_neg hsz, hc, hp, hr, hpnl,
      Except.map]
    norm_num [initAgg, F.fadd]
  · rw [abs_lt]
    constructor <;> norm_num
  · rw [abs_lt]
    constructor <;> norm_num
  · rw [abs_lt]
    constructor <;> norm_num

end JupPerp
